import Mathlib

/-!
Verification development for the Oli3D admin panel (admin.py).

The file shallowly embeds the core of admin.py: the catalog validator
(validate_database), the checkpoint gate (api_commit together with
git_commit and has_uncommitted_changes), and the mutation routes
(new_product, edit_product, new_category, edit_category, delete_category).

Modelling conventions:
- a JSON record is a structure whose fields are Option-valued; a value of
  none models the key being absent from the dictionary;
- Python truthiness of a field (used by admin.py via p.get and if tests)
  is made explicit with the xxxTruthy helpers;
- Python exceptions that admin.py leaves uncaught (KeyError from direct
  indexing, ValueError from float conversion) are modelled with an
  explicit PyExc value threaded through Except or the Handler type;
- JSON numbers are modelled as rationals; the Python int and float text
  conversions are modelled by pyInt and pyFloat, covering surrounding
  whitespace, an optional sign, decimal digits, a fractional part and an
  exponent (the exotic float spellings inf and nan, and digit group
  underscores, are not modelled);
- subprocess calls to git are modelled by a GitEnv record describing
  what the external git capability would answer.
-/

namespace Oli3d

/-- apostrophe character (code point 39), used inside the Spanish error
message strings of admin.py. -/
def apoChar : Char := Char.ofNat 39

/-- one-character string holding the apostrophe. -/
def apo : String := ⟨[apoChar]⟩

/-- wraps a string in apostrophes, as the f-strings of admin.py do. -/
def quoted (s : String) : String := apo ++ s ++ apo

/-- Python truthiness of an optional string field: false for an absent key
and for the empty string. -/
def strTruthy : Option String → Bool
  | none => false
  | some s => !(s == "")

/-- Python truthiness of an optional list field: false for an absent key
and for the empty list. -/
def listTruthy : Option (List String) → Bool
  | none => false
  | some l => !(l.isEmpty)

/-- Python truthiness of an optional number field: false for an absent key
and for zero. -/
def numTruthy : Option Rat → Bool
  | none => false
  | some q => !(q == 0)

/-- models the Python comparison value != 0 applied to p.get, where the
absent key gives None and None != 0 is True. -/
def numNeZero : Option Rat → Bool
  | none => true
  | some q => !(q == 0)

/-- one price offer entry, as written by the priceOffers parsing loop. -/
structure Offer where
  quantity : Int
  price : Rat
  label : String
deriving Repr, DecidableEq

/-- one product record of db/products.json; none models an absent key. -/
structure Product where
  id : Option String := none
  name : Option String := none
  description : Option String := none
  price : Option Rat := none
  image : Option String := none
  images : Option (List String) := none
  highlighted : Option Bool := none
  hidden : Option Bool := none
  categories : Option (List String) := none
  size : Option String := none
  material : Option String := none
  wallapopLink : Option String := none
  priceOffers : Option (List Offer) := none
  createdAt : Option String := none
deriving Repr, DecidableEq

/-- one category record of db/categories.json; none models an absent key. -/
structure Category where
  id : Option String := none
  name : Option String := none
  icon : Option String := none
  popular : Option Bool := none
  seasonal : Option Bool := none
  hidden : Option Bool := none
deriving Repr, DecidableEq

/-- Python exceptions that admin.py leaves uncaught in the modelled code. -/
inductive PyExc where
  | keyError
  | valueError
deriving Repr, DecidableEq

/-- result dictionary of validate_database. -/
structure ValidationReport where
  valid : Bool
  errors : List String
  warnings : List String
  product_count : Nat
  category_count : Nat
deriving Repr, DecidableEq

/-- models p.get with a default: the stored value when the key is present
(even when it is empty), the default otherwise. -/
def getDefault (o : Option String) (d : String) : String := o.getD d

/-- the id shown in validator messages: p.get with default of a question
mark. -/
def idShown (o : Option String) : String := getDefault o "?"

/-- the name shown in the category warning: p.get of name with the id as
fallback default. -/
def nameOrId (p : Product) : String :=
  match p.name with
  | some n => n
  | none => idShown p.id

/-- the name shown in the category reference and image messages: p.get of
name with a question mark default. -/
def nameShown (p : Product) : String := getDefault p.name "?"

/-- validator message for a product without id (admin.py line 125). -/
def msgProductNoId : String := "Producto sin ID encontrado"

/-- validator message for a duplicated product id (admin.py line 127). -/
def msgProductDupId (i : String) : String := "ID duplicado: " ++ i

/-- validator message for a product without name (admin.py line 132). -/
def msgProductNoName (p : Product) : String :=
  "Producto " ++ quoted (idShown p.id) ++ " sin nombre"

/-- validator message for a product without price (admin.py line 135). -/
def msgProductNoPrice (p : Product) : String :=
  "Producto " ++ quoted (idShown p.id) ++ " sin precio"

/-- validator warning for a product without categories (admin.py line 138). -/
def msgProductNoCats (p : Product) : String :=
  "Producto " ++ quoted (nameOrId p) ++ " sin categorías"

/-- validator message for a dangling category reference (admin.py line 142). -/
def msgProductBadCat (p : Product) (c : String) : String :=
  "Producto " ++ quoted (nameShown p) ++ " tiene categoría inexistente: " ++ c

/-- validator warning for a product without image (admin.py line 145). -/
def msgProductNoImage (p : Product) : String :=
  "Producto " ++ quoted (nameShown p) ++ " sin imagen"

/-- validator message for a category without id (admin.py line 151). -/
def msgCategoryNoId : String := "Categoría sin ID encontrada"

/-- validator message for a duplicated category id (admin.py line 153). -/
def msgCategoryDupId (i : String) : String := "ID de categoría duplicado: " ++ i

/-- validator message for a category without name (admin.py line 158). -/
def msgCategoryNoName (c : Category) : String :=
  "Categoría " ++ quoted (idShown c.id) ++ " sin nombre"

/-- the id check of the product loop (admin.py lines 124 to 129): returns
the error strings it appends and the updated seen-id set. -/
def productIdCheck (seen : List String) (p : Product) : List String × List String :=
  if !(strTruthy p.id) then ([msgProductNoId], seen)
  else
    match p.id with
    | some i => if i ∈ seen then ([msgProductDupId i], seen) else ([], seen ++ [i])
    | none => ([msgProductNoId], seen)

/-- the name check of the product loop (admin.py lines 131 to 132). -/
def productNameErrors (p : Product) : List String :=
  if strTruthy p.name then [] else [msgProductNoName p]

/-- the price check of the product loop (admin.py lines 134 to 135): the
Python test is written not p.get(price) and p.get(price) != 0. -/
def productPriceErrors (p : Product) : List String :=
  if !(numTruthy p.price) && numNeZero p.price then [msgProductNoPrice p] else []

/-- the categories check of the product loop (admin.py lines 137 to 142):
returns (errors, warnings). -/
def productCatChecks (catIds : List String) (p : Product) : List String × List String :=
  if !(listTruthy p.categories) then ([], [msgProductNoCats p])
  else
    ((p.categories.getD []).filterMap fun c =>
      if c ∈ catIds then none else some (msgProductBadCat p c), [])

/-- the image check of the product loop (admin.py lines 144 to 145). -/
def productImageWarnings (p : Product) : List String :=
  if strTruthy p.image then [] else [msgProductNoImage p]

/-- all error strings the product loop appends for one record. -/
def productBlockErrors (catIds : List String) (seen : List String) (p : Product) : List String :=
  (productIdCheck seen p).1 ++ productNameErrors p ++ productPriceErrors p ++
    (productCatChecks catIds p).1

/-- all warning strings the product loop appends for one record. -/
def productBlockWarnings (catIds : List String) (p : Product) : List String :=
  (productCatChecks catIds p).2 ++ productImageWarnings p

/-- the product loop of validate_database (admin.py lines 121 to 145),
threading the seen-id set and collecting errors and warnings in order. -/
def checkProducts (catIds : List String) (seen : List String) :
    List Product → List String × List String
  | [] => ([], [])
  | p :: ps =>
    let rest := checkProducts catIds (productIdCheck seen p).2 ps
    (productBlockErrors catIds seen p ++ rest.1,
     productBlockWarnings catIds p ++ rest.2)

/-- the id and name checks of the category loop for one record
(admin.py lines 150 to 158). -/
def categoryIdCheck (seen : List String) (c : Category) : List String × List String :=
  if !(strTruthy c.id) then ([msgCategoryNoId], seen)
  else
    match c.id with
    | some i => if i ∈ seen then ([msgCategoryDupId i], seen) else ([], seen ++ [i])
    | none => ([msgCategoryNoId], seen)

/-- all error strings the category loop appends for one record. -/
def categoryBlockErrors (seen : List String) (c : Category) : List String :=
  (categoryIdCheck seen c).1 ++
    (if strTruthy c.name then [] else [msgCategoryNoName c])

/-- the category loop of validate_database (admin.py lines 148 to 158). -/
def checkCategories (seen : List String) : List Category → List String
  | [] => []
  | c :: cs =>
    categoryBlockErrors seen c ++ checkCategories (categoryIdCheck seen c).2 cs

/-- the category id set construction of admin.py line 118, which indexes
c with the id key directly and therefore raises KeyError for a category
record having no id key at all. -/
def categoryIdSet : List Category → Except PyExc (List String)
  | [] => Except.ok []
  | c :: cs =>
    match c.id with
    | none => Except.error PyExc.keyError
    | some i => (categoryIdSet cs).map fun rest => i :: rest

/-- validate_database of admin.py (lines 110 to 166), over the persisted
collections instead of the files; the KeyError of line 118 surfaces as an
Except error. -/
def validate_database (products : List Product) (categories : List Category) :
    Except PyExc ValidationReport :=
  match categoryIdSet categories with
  | Except.error e => Except.error e
  | Except.ok catIds =>
    let pres := checkProducts catIds [] products
    let errors := pres.1 ++ checkCategories [] categories
    Except.ok
      { valid := errors.isEmpty
        errors := errors
        warnings := pres.2
        product_count := products.length
        category_count := categories.length }

/-- model of the external git capability. pending is whether git status
porcelain over db/ prints anything; addOk is whether git add succeeds
(check=True raises otherwise and the message of the exception is
addFailMsg); commitRc and commitStderr describe the git commit call. -/
structure GitEnv where
  pending : Bool
  addOk : Bool := true
  addFailMsg : String := ""
  commitRc : Int := 0
  commitStderr : String := ""
deriving Repr, DecidableEq

/-- result dictionary of git_commit and of the commit endpoint. -/
structure OpResult where
  success : Bool
  message : String
deriving Repr, DecidableEq

/-- has_uncommitted_changes of admin.py (lines 83 to 94): true when git
status porcelain over db/ prints anything. -/
def has_uncommitted_changes (env : GitEnv) : Bool := env.pending

/-- git_commit of admin.py (lines 168 to 187): runs git add (whose failure
is caught and reported), then git commit; a zero return code reports
success, otherwise stderr or a fallback message is reported. The commit
message argument is passed to git only, so it does not affect the result
dictionary. -/
def git_commit (env : GitEnv) (_message : String) : OpResult :=
  if !env.addOk then { success := false, message := env.addFailMsg }
  else if env.commitRc == 0 then
    { success := true, message := "Cambios guardados correctamente" }
  else
    { success := false
      message := if env.commitStderr == "" then "Error al guardar" else env.commitStderr }

/-- observable effect of one call to the commit endpoint: the returned
result, whether git_commit was invoked, the stored collections afterwards
(the endpoint never writes them), and the pending state of the external
git capability afterwards (a successful git commit of db/ clears the
porcelain status; everything else leaves it as it was). -/
structure CheckpointEffect where
  result : OpResult
  invokedCommit : Bool
  products : List Product
  categories : List Category
  pendingAfter : Bool
deriving Repr, DecidableEq

/-- api_commit of admin.py (lines 1134 to 1144): validates first and
refuses to commit when the report is invalid; otherwise it invokes
git_commit with a timestamped message. It never consults
has_uncommitted_changes. A KeyError raised by validate_database
propagates out of the endpoint. -/
def api_commit (products : List Product) (categories : List Category)
    (env : GitEnv) (timestamp : String) : Except PyExc CheckpointEffect :=
  match validate_database products categories with
  | Except.error e => Except.error e
  | Except.ok report =>
    if !report.valid then
      Except.ok
        { result := { success := false, message := "La base de datos tiene errores" }
          invokedCommit := false
          products := products
          categories := categories
          pendingAfter := env.pending }
    else
      let r := git_commit env ("Actualización de productos/categorías - " ++ timestamp)
      Except.ok
        { result := r
          invokedCommit := true
          products := products
          categories := categories
          pendingAfter := if r.success then false else env.pending }

/-- drops leading characters for which the test holds, from a character
list; building block of the model of the Python str.strip method. -/
def stripLCore (cs : List Char) : List Char := cs.dropWhile Char.isWhitespace

/-- drops trailing whitespace characters from a character list. -/
def stripRCore (cs : List Char) : List Char :=
  ((cs.reverse).dropWhile Char.isWhitespace).reverse

/-- model of the Python str.strip method on character lists: removes
leading and trailing whitespace. -/
def pyStripCore (cs : List Char) : List Char := stripRCore (stripLCore cs)

/-- model of the Python str.strip method. -/
def pyStrip (s : String) : String := ⟨pyStripCore s.data⟩

/-- prepends a character to the first field of a split result. -/
def consHead (c : Char) : List (List Char) → List (List Char)
  | [] => [[c]]
  | x :: xs => (c :: x) :: xs

/-- model of the Python str.split method with a one-character separator,
on character lists; the empty input gives one empty field, as in Python. -/
def splitCore (sep : Char) : List Char → List (List Char)
  | [] => [[]]
  | c :: cs =>
    if c = sep then [] :: splitCore sep cs
    else consHead c (splitCore sep cs)

/-- model of the Python str.split method with a one-character separator. -/
def pySplit (sep : Char) (s : String) : List String :=
  (splitCore sep s.data).map fun cs => ⟨cs⟩

/-- character-level lowercasing; models the Python str.lower method at the
ASCII level (the records of this catalog use ASCII ids). -/
def pyLower (s : String) : String := ⟨s.data.map Char.toLower⟩

/-- character-wise replacement; models str.replace with one-character
arguments. -/
def pyReplace (s : String) (a b : Char) : String :=
  ⟨s.data.map fun c => if c = a then b else c⟩

/-- id normalisation used by the create routes (admin.py lines 1161 and
1304): lowercase, then spaces to underscores. -/
def normalizeId (s : String) : String := pyReplace (pyLower s) ' ' '_'

/-- numeric value of a list of decimal digits. -/
def digitsToNat (cs : List Char) : Nat :=
  cs.foldl (fun n c => n * 10 + (c.toNat - 48)) 0

/-- splits an optional leading sign off a character list, returning true
for a minus sign. -/
def takeSign : List Char → Bool × List Char
  | '+' :: r => (false, r)
  | '-' :: r => (true, r)
  | r => (false, r)

/-- model of the Python int constructor on strings: surrounding whitespace,
an optional sign, then one or more decimal digits; anything else raises
ValueError, modelled as none. -/
def pyInt (s : String) : Option Int :=
  let cs := pyStripCore s.data
  let sr := takeSign cs
  if sr.2.isEmpty || !(sr.2.all Char.isDigit) then none
  else some ((if sr.1 then -1 else 1) * (digitsToNat sr.2 : Int))

/-- parses an optional exponent part (e or E, optional sign, digits) and
requires the rest of the input to be empty; gives the exponent value. -/
def parseExpPart : List Char → Option Int
  | [] => some 0
  | c :: r =>
    if c = 'e' ∨ c = 'E' then
      let sr := takeSign r
      if sr.2.isEmpty || !(sr.2.all Char.isDigit) then none
      else some ((if sr.1 then -1 else 1) * (digitsToNat sr.2 : Int))
    else none

/-- model of the Python float constructor on strings, as a rational:
surrounding whitespace, an optional sign, then digits with an optional
decimal point and an optional exponent; at least one digit must be present
in the mantissa. The spellings inf and nan are not modelled. -/
def pyFloat (s : String) : Option Rat :=
  let cs := pyStripCore s.data
  let sr := takeSign cs
  let ip := sr.2.takeWhile Char.isDigit
  let r1 := sr.2.dropWhile Char.isDigit
  let core : Option (Nat × Nat × List Char) :=
    match r1 with
    | '.' :: r2 =>
      let fp := r2.takeWhile Char.isDigit
      let r3 := r2.dropWhile Char.isDigit
      if ip.isEmpty && fp.isEmpty then none
      else some (digitsToNat (ip ++ fp), fp.length, r3)
    | _ => if ip.isEmpty then none else some (digitsToNat ip, 0, r1)
  match core with
  | none => none
  | some (m, f, rest) =>
    match parseExpPart rest with
    | none => none
    | some e =>
      let sm : Int := (if sr.1 then -1 else 1) * (m : Int)
      let net : Int := e - (f : Int)
      if 0 ≤ net then some ((sm * 10 ^ net.toNat : Int) : Rat)
      else some (mkRat sm (10 ^ (-net).toNat))

/-- outcome of one Flask route handler call over store state σ: a redirect
carrying a flash message (ok or error), or a Python exception escaping the
handler. The state component is the persisted collection after the call. -/
inductive Handler (σ : Type) where
  | redirectOk (message : String) (state : σ)
  | redirectErr (message : String) (state : σ)
  | raised (exc : PyExc) (state : σ)
deriving Repr, DecidableEq

/-- model of the duplicate id test of the create routes, written in
admin.py as any of p indexed at id equal to the target: the generator
short-circuits at the first match and raises KeyError when it reaches a
record having no id key. -/
def anyIdIs : List (Option String) → String → Except PyExc Bool
  | [], _ => Except.ok false
  | none :: _, _ => Except.error PyExc.keyError
  | some i :: rest, t =>
    if i = t then Except.ok true else anyIdIs rest t

/-- model of the record lookup of the edit routes, written with next over
a generator comparing the id index: stops at the first match, raises
KeyError when it reaches a record having no id key first, and returns the
records before the match, the match, and the records after it. -/
def findSplitBy {α : Type} (idOf : α → Option String) :
    List α → String → Except PyExc (Option (List α × α × List α))
  | [], _ => Except.ok none
  | x :: xs, t =>
    match idOf x with
    | none => Except.error PyExc.keyError
    | some i =>
      if i = t then Except.ok (some ([], x, xs))
      else
        (findSplitBy idOf xs t).map fun o =>
          o.map fun pre_m_suf => (x :: pre_m_suf.1, pre_m_suf.2.1, pre_m_suf.2.2)

/-- model of the delete route list comprehension, which keeps records whose
id index differs from the target and raises KeyError at a record having no
id key. -/
def filterIdNe {α : Type} (idOf : α → Option String) :
    List α → String → Except PyExc (List α)
  | [], _ => Except.ok []
  | x :: xs, t =>
    match idOf x with
    | none => Except.error PyExc.keyError
    | some i =>
      (filterIdNe idOf xs t).map fun rest =>
        if i = t then rest else x :: rest

/-- form data of the product routes. The id, name and price fields are
indexed directly in admin.py (the HTML form always posts them); the
remaining text fields model request.form.get (none when the key is absent)
and the checkbox fields model the in request.form test. categories models
request.form.getlist. -/
structure ProductForm where
  id : String := ""
  name : String := ""
  price : String := ""
  description : Option String := none
  image : Option String := none
  additional_images : Option String := none
  highlighted : Bool := false
  hidden : Bool := false
  categories : List String := []
  size : Option String := none
  material : Option String := none
  wallapopLink : Option String := none
  priceOffers : Option String := none
deriving Repr, DecidableEq

/-- form data of the category routes. -/
structure CategoryForm where
  id : String := ""
  name : String := ""
  icon : Option String := none
  popular : Bool := false
  seasonal : Bool := false
  hidden : Bool := false
deriving Repr, DecidableEq

/-- main image of a product form: request.form.get of image with the logo
default (admin.py lines 1166 and 1235). -/
def mainImageOf (form : ProductForm) : String :=
  form.image.getD "resources/LOGO_SIN_FONDO.png"

/-- additional image lines of the product routes (admin.py lines 1168 to
1172): the whole field is stripped; when the result is nonempty it is
split into lines and each nonblank line is stripped and appended. -/
def extraImages (additionalRaw : String) : List String :=
  let a := pyStrip additionalRaw
  if a = "" then []
  else
    (pySplit '\n' a).filterMap fun l =>
      let t := pyStrip l
      if t = "" then none else some t

/-- parses one line of the priceOffers text field (admin.py lines 1201 to
1211): the stripped line is split on commas; with fewer than two fields
the line is skipped; the first field is converted with int and the second
with float, any conversion failure silently dropping the line; the label
is the third field when present and otherwise the raw first field followed
by the "+ unidades" suffix. -/
def parseOfferLine (line : String) : Option Offer :=
  match pySplit ',' (pyStrip line) with
  | p0 :: p1 :: rest =>
    match pyInt p0 with
    | none => none
    | some q =>
      match pyFloat p1 with
      | none => none
      | some pr =>
        some { quantity := q
               price := pr
               label := match rest with
                 | l :: _ => l
                 | [] => p0 ++ "+ unidades" }
  | _ => none

/-- parses the whole priceOffers text: one offer per successfully parsed
line, other lines silently dropped. -/
def parseOffers (text : String) : List Offer :=
  (pySplit '\n' text).filterMap parseOfferLine

/-- value stored under priceOffers by both product routes: the stripped
text field; when it is empty, or when no line of it parses, the key is
absent, and otherwise it holds the parsed offers. -/
def offersField (raw : Option String) : Option (List Offer) :=
  let t := pyStrip (raw.getD "")
  if t = "" then none
  else
    let offers := parseOffers t
    if offers.isEmpty then none else some offers

/-- new_product of admin.py (POST branch, lines 1156 to 1217): checks the
normalised id for duplicates, builds the image list, converts the price
with float (an unparseable price raises ValueError out of the handler,
before anything is saved), assembles the record with its field defaults
and presence rules, and appends it to the collection. The record assembled by
the create route (admin.py lines 1174 to 1213) is factored out as
builtProduct, taking the already converted price. -/
def builtProduct (form : ProductForm) (today : String) (pr : Rat) : Product :=
  let main_image := mainImageOf form
  let images := main_image :: extraImages (form.additional_images.getD "")
  { id := some (normalizeId form.id)
    name := some form.name
    description := some (form.description.getD "")
    price := some pr
    image := some main_image
    images := if images.length > 1 then some images else none
    highlighted := some form.highlighted
    hidden := if form.hidden then some true else none
    categories := some form.categories
    size := some (form.size.getD "")
    material := some (form.material.getD "PLA")
    wallapopLink := if strTruthy form.wallapopLink then form.wallapopLink else none
    priceOffers := offersField form.priceOffers
    createdAt := some today }

/-- new_product of admin.py (POST branch, lines 1156 to 1217): checks the
normalised id for duplicates, converts the price with float (an
unparseable price raises ValueError out of the handler, before anything is
saved), and appends the assembled record to the collection. -/
def new_product (form : ProductForm) (today : String) (products : List Product) :
    Handler (List Product) :=
  match anyIdIs (products.map fun p => p.id) (normalizeId form.id) with
  | Except.error e => Handler.raised e products
  | Except.ok true =>
    Handler.redirectErr "Ya existe un producto con ese ID" products
  | Except.ok false =>
    match pyFloat form.price with
    | none => Handler.raised PyExc.valueError products
    | some pr =>
      Handler.redirectOk "Producto creado (recuerda guardar los cambios)"
        (products ++ [builtProduct form today pr])

/-- field updates the edit route applies to the found record (admin.py
lines 1231 to 1283): overwrites the editable fields with the same presence
rules as the create route and keeps id and createdAt. -/
def editedProduct (orig : Product) (form : ProductForm) (pr : Rat) : Product :=
  let main_image := mainImageOf form
  let images := main_image :: extraImages (form.additional_images.getD "")
  { orig with
    name := some form.name
    description := some (form.description.getD "")
    price := some pr
    image := some main_image
    images := if images.length > 1 then some images else none
    highlighted := some form.highlighted
    categories := some form.categories
    size := some (form.size.getD "")
    material := some (form.material.getD "PLA")
    wallapopLink := if strTruthy form.wallapopLink then form.wallapopLink else none
    hidden := if form.hidden then some true else none
    priceOffers := offersField form.priceOffers }

/-- edit_product of admin.py (POST branch, lines 1222 to 1286): finds the
record by id (not found redirects with an error), converts the price with
float (an unparseable price raises ValueError out of the handler, before
the collection is saved), and saves the collection with the found record
overwritten in place. -/
def edit_product (form : ProductForm) (product_id : String) (products : List Product) :
    Handler (List Product) :=
  match findSplitBy (fun p => p.id) products product_id with
  | Except.error e => Handler.raised e products
  | Except.ok none => Handler.redirectErr "Producto no encontrado" products
  | Except.ok (some (pre, orig, suf)) =>
    match pyFloat form.price with
    | none => Handler.raised PyExc.valueError products
    | some pr =>
      Handler.redirectOk "Producto actualizado (recuerda guardar los cambios)"
        (pre ++ editedProduct orig form pr :: suf)

/-- record assembled by the category create route (admin.py lines 1308 to
1318): popular is always stored as a boolean, while seasonal and hidden
are stored (as true) only when the checkbox is set. -/
def builtCategory (form : CategoryForm) : Category :=
  { id := some (normalizeId form.id)
    name := some form.name
    icon := some (form.icon.getD "📦")
    popular := some form.popular
    seasonal := if form.seasonal then some true else none
    hidden := if form.hidden then some true else none }

/-- new_category of admin.py (POST branch, lines 1299 to 1322): checks the
normalised id for duplicates and appends the assembled record. -/
def new_category (form : CategoryForm) (categories : List Category) :
    Handler (List Category) :=
  match anyIdIs (categories.map fun c => c.id) (normalizeId form.id) with
  | Except.error e => Handler.raised e categories
  | Except.ok true =>
    Handler.redirectErr "Ya existe una categoría con ese ID" categories
  | Except.ok false =>
    Handler.redirectOk "Categoría creada (recuerda guardar los cambios)"
      (categories ++ [builtCategory form])

/-- field updates the category edit route applies to the found record
(admin.py lines 1336 to 1348): overwrites name and icon, always stores
popular as a boolean, and stores seasonal and hidden (as true) only when
set, deleting them otherwise. -/
def editedCategory (orig : Category) (form : CategoryForm) : Category :=
  { orig with
    name := some form.name
    icon := some (form.icon.getD "📦")
    popular := some form.popular
    seasonal := if form.seasonal then some true else none
    hidden := if form.hidden then some true else none }

/-- edit_category of admin.py (POST branch, lines 1327 to 1351): finds the
record by id and saves the collection with the found record overwritten. -/
def edit_category (form : CategoryForm) (category_id : String)
    (categories : List Category) : Handler (List Category) :=
  match findSplitBy (fun c => c.id) categories category_id with
  | Except.error e => Handler.raised e categories
  | Except.ok none => Handler.redirectErr "Categoría no encontrada" categories
  | Except.ok (some (pre, orig, suf)) =>
    Handler.redirectOk "Categoría actualizada (recuerda guardar los cambios)"
      (pre ++ editedCategory orig form :: suf)

/-- delete_category of admin.py (lines 1356 to 1361): filters out every
record whose id equals the given one and saves the result; there is no
special case for the id all at this layer. -/
def delete_category (category_id : String) (categories : List Category) :
    Handler (List Category) :=
  match filterIdNe (fun c => c.id) categories category_id with
  | Except.error e => Handler.raised e categories
  | Except.ok kept =>
    Handler.redirectOk "Categoría eliminada (recuerda guardar los cambios)" kept

/-- the list of nonblank lines of a text, each stripped, in input order;
this is the wording of the specification for the additional image lines
(stated without the leading whole-field strip the source performs; the
two agree, as proved below). -/
def nonblankLines (s : String) : List String :=
  (pySplit '\n' s).filterMap fun l =>
    let t := pyStrip l
    if t = "" then none else some t

/-- character-list counterpart of the nonblank-line test: strips a line
and drops it when nothing is left. -/
def stripOrDrop (l : List Char) : Option (List Char) :=
  let t := pyStripCore l
  if t = [] then none else some t

/-- character-list counterpart of nonblankLines. -/
def nonblankCore (cs : List Char) : List (List Char) :=
  (splitCore '\n' cs).filterMap stripOrDrop

/-- applies a function to the last element of a list, used to describe how
appending one character extends the last field of a split. -/
def modifyLast {α : Type} (f : α → α) : List α → List α
  | [] => []
  | [x] => [f x]
  | x :: y :: xs => x :: modifyLast f (y :: xs)

/-! General lemmas about the embedded definitions. -/

theorem data_append (s t : String) : (s ++ t).data = s.data ++ t.data := rfl

theorem str_left_cancel {s u v : String} (h : s ++ u = s ++ v) : u = v := by
  have h2 := congrArg String.data h
  rw [data_append, data_append] at h2
  exact String.ext (List.append_cancel_left h2)

theorem str_ne_of_data_ne {s t : String} (h : s.data ≠ t.data) : s ≠ t :=
  fun he => h (congrArg String.data he)

theorem validate_ok_valid {products : List Product} {categories : List Category}
    {r : ValidationReport} (h : validate_database products categories = Except.ok r) :
    r.valid = r.errors.isEmpty := by
  unfold validate_database at h
  cases hc : categoryIdSet categories with
  | error e => rw [hc] at h; exact absurd h (by simp)
  | ok catIds =>
    rw [hc] at h
    injection h with h2
    subst h2
    rfl

theorem anyIdIs_mem {ids : List (Option String)} {t : String}
    (hall : ∀ o ∈ ids, o ≠ none) (hmem : some t ∈ ids) :
    anyIdIs ids t = Except.ok true := by
  induction ids with
  | nil => cases hmem
  | cons o rest ih =>
    cases o with
    | none => exact absurd rfl (hall none (List.mem_cons_self _ _))
    | some i =>
      by_cases hit : i = t
      · simp [anyIdIs, hit]
      · have hm2 : some t ∈ rest := by
          cases List.mem_cons.mp hmem with
          | inl he => exact absurd (Option.some.inj he).symm hit
          | inr hr => exact hr
        have := ih (fun o ho => hall o (List.mem_cons_of_mem _ ho)) hm2
        simp [anyIdIs, hit, this]

theorem findSplitBy_ok_some {α : Type} {idOf : α → Option String} {l : List α}
    {t : String} {pre : List α} {x : α} {suf : List α}
    (h : findSplitBy idOf l t = Except.ok (some (pre, x, suf))) :
    l = pre ++ x :: suf := by
  induction l generalizing pre x suf with
  | nil => simp [findSplitBy] at h
  | cons a as ih =>
    cases ho : idOf a with
    | none => simp [findSplitBy, ho] at h
    | some i =>
      by_cases hit : i = t
      · simp [findSplitBy, ho, hit] at h
        try simp [← h.1, ← h.2.1, ← h.2.2]
        try simp
      · simp only [findSplitBy, ho, hit, if_neg hit] at h
        cases hrec : findSplitBy idOf as t with
        | error e => simp [hrec, Except.map] at h
        | ok o =>
          cases o with
          | none => simp [hrec, Except.map] at h
          | some pxs =>
            obtain ⟨p2, x2, s2⟩ := pxs
            simp [hrec, Except.map] at h
            obtain ⟨h1, h2, h3⟩ := h
            subst h1; subst h2; subst h3
            simpa using ih hrec

theorem new_product_ok_inv {form : ProductForm} {today : String}
    {products : List Product} {m : String} {ps2 : List Product}
    (h : new_product form today products = Handler.redirectOk m ps2) :
    ∃ pr, pyFloat form.price = some pr ∧
      m = "Producto creado (recuerda guardar los cambios)" ∧
      ps2 = products ++ [builtProduct form today pr] := by
  cases ha : anyIdIs (products.map fun p => p.id) (normalizeId form.id) with
  | error e => simp [new_product, ha] at h
  | ok b =>
    cases b with
    | true => simp [new_product, ha] at h
    | false =>
      cases hp : pyFloat form.price with
      | none => simp [new_product, ha, hp] at h
      | some pr =>
        simp only [new_product, ha, hp, Handler.redirectOk.injEq] at h
        exact ⟨pr, rfl, h.1.symm, h.2.symm⟩

theorem edit_product_ok_inv {form : ProductForm} {pid : String}
    {products : List Product} {m : String} {ps2 : List Product}
    (h : edit_product form pid products = Handler.redirectOk m ps2) :
    ∃ pre orig suf pr,
      products = pre ++ orig :: suf ∧ pyFloat form.price = some pr ∧
      m = "Producto actualizado (recuerda guardar los cambios)" ∧
      ps2 = pre ++ editedProduct orig form pr :: suf := by
  cases hf : findSplitBy (fun p => p.id) products pid with
  | error e => simp [edit_product, hf] at h
  | ok o =>
    cases o with
    | none => simp [edit_product, hf] at h
    | some pos =>
      obtain ⟨pre, orig, suf⟩ := pos
      cases hp : pyFloat form.price with
      | none => simp [edit_product, hf, hp] at h
      | some pr =>
        simp only [edit_product, hf, hp, Handler.redirectOk.injEq] at h
        exact ⟨pre, orig, suf, pr, findSplitBy_ok_some hf, rfl, h.1.symm, h.2.symm⟩

theorem new_category_ok_inv {form : CategoryForm} {categories : List Category}
    {m : String} {cs2 : List Category}
    (h : new_category form categories = Handler.redirectOk m cs2) :
    m = "Categoría creada (recuerda guardar los cambios)" ∧
    cs2 = categories ++ [builtCategory form] := by
  cases ha : anyIdIs (categories.map fun c => c.id) (normalizeId form.id) with
  | error e => simp [new_category, ha] at h
  | ok b =>
    cases b with
    | true => simp [new_category, ha] at h
    | false =>
      simp only [new_category, ha, Handler.redirectOk.injEq] at h
      exact ⟨h.1.symm, h.2.symm⟩

theorem edit_category_ok_inv {form : CategoryForm} {cid : String}
    {categories : List Category} {m : String} {cs2 : List Category}
    (h : edit_category form cid categories = Handler.redirectOk m cs2) :
    ∃ pre orig suf,
      categories = pre ++ orig :: suf ∧
      m = "Categoría actualizada (recuerda guardar los cambios)" ∧
      cs2 = pre ++ editedCategory orig form :: suf := by
  cases hf : findSplitBy (fun c => c.id) categories cid with
  | error e => simp [edit_category, hf] at h
  | ok o =>
    cases o with
    | none => simp [edit_category, hf] at h
    | some pos =>
      obtain ⟨pre, orig, suf⟩ := pos
      simp only [edit_category, hf, Handler.redirectOk.injEq] at h
      exact ⟨pre, orig, suf, findSplitBy_ok_some hf, h.1.symm, h.2.symm⟩

/-! Claim theorems. -/

/-- C1: for every persisted catalog whose validation report contains at
least one error, a checkpoint request returns a failure result, does not
invoke the external commit capability, and leaves the stored collections
and the pending (dirty) state unchanged. -/
theorem checkpoint_blocked_on_validation_errors
    (products : List Product) (categories : List Category) (env : GitEnv)
    (ts : String) (r : ValidationReport)
    (hv : validate_database products categories = Except.ok r)
    (hne : r.errors ≠ []) :
    api_commit products categories env ts =
      Except.ok
        { result := { success := false, message := "La base de datos tiene errores" }
          invokedCommit := false
          products := products
          categories := categories
          pendingAfter := env.pending } := by
  have hv2 : r.valid = false := by
    rw [validate_ok_valid hv]
    cases herr : r.errors with
    | nil => exact absurd herr hne
    | cons a l => rfl
  simp [api_commit, hv, hv2]

/-- witness for C1: a concrete catalog with a missing price blocks the
checkpoint without invoking git. -/
theorem checkpoint_blocked_on_validation_errors_witness :
    validate_database [{ id := some "w", name := some "W", price := none }] [] =
      Except.ok
        { valid := false
          errors := ["Producto " ++ quoted "w" ++ " sin precio"]
          warnings := ["Producto " ++ quoted "W" ++ " sin categorías",
                       "Producto " ++ quoted "W" ++ " sin imagen"]
          product_count := 1
          category_count := 0 } ∧
    api_commit [{ id := some "w", name := some "W", price := none }] []
        { pending := true } "2025-01-01 00:00" =
      Except.ok
        { result := { success := false, message := "La base de datos tiene errores" }
          invokedCommit := false
          products := [{ id := some "w", name := some "W", price := none }]
          categories := []
          pendingAfter := true } :=
  ⟨rfl,
    checkpoint_blocked_on_validation_errors
      [{ id := some "w", name := some "W", price := none }] []
      { pending := true } "2025-01-01 00:00"
      { valid := false
        errors := ["Producto " ++ quoted "w" ++ " sin precio"]
        warnings := ["Producto " ++ quoted "W" ++ " sin categorías",
                     "Producto " ++ quoted "W" ++ " sin imagen"]
        product_count := 1
        category_count := 0 }
      rfl (by simp)⟩

/-- C2 (code bug): the delete-category route has no special case for the
reserved id all: a delete request for all removes that record from the
stored collection, while a delete request for another id removes exactly
that record. The first conjunct exhibits the missing protection; the
template merely hides the delete link for all. -/
theorem delete_category_all_not_protected :
    delete_category "all"
        [{ id := some "all", name := some "Todos" }, { id := some "x", name := some "X" }] =
      Handler.redirectOk "Categoría eliminada (recuerda guardar los cambios)"
        [{ id := some "x", name := some "X" }] ∧
    delete_category "x"
        [{ id := some "all", name := some "Todos" }, { id := some "x", name := some "X" }] =
      Handler.redirectOk "Categoría eliminada (recuerda guardar los cambios)"
        [{ id := some "all", name := some "Todos" }] :=
  ⟨rfl, rfl⟩

/-- C3 counterexample: with the change detector reporting no pending
changes (clean git status) and a valid (empty) catalog, the checkpoint
endpoint still invokes the commit capability and returns its failure
result instead of a success with a nothing-to-save outcome. -/
theorem checkpoint_clean_counterexample :
    has_uncommitted_changes { pending := false, commitRc := 1 } = false ∧
    api_commit [] [] { pending := false, commitRc := 1 } "2025-01-01 00:00" =
      Except.ok
        { result := { success := false, message := "Error al guardar" }
          invokedCommit := true
          products := []
          categories := []
          pendingAfter := false } :=
  ⟨rfl, rfl⟩

/-- C3 (amended): the checkpoint endpoint never consults the change
detector; even when it reports no pending changes, a checkpoint request
on a valid catalog invokes the external commit capability and returns
that capability result verbatim, never a nothing-to-save outcome. -/
theorem checkpoint_ignores_change_detector
    (products : List Product) (categories : List Category) (env : GitEnv)
    (ts : String) (r : ValidationReport)
    (_hclean : has_uncommitted_changes env = false)
    (hv : validate_database products categories = Except.ok r)
    (hok : r.errors = []) :
    api_commit products categories env ts =
      Except.ok
        { result := git_commit env ("Actualización de productos/categorías - " ++ ts)
          invokedCommit := true
          products := products
          categories := categories
          pendingAfter :=
            if (git_commit env ("Actualización de productos/categorías - " ++ ts)).success
            then false else env.pending } := by
  have hv2 : r.valid = true := by rw [validate_ok_valid hv, hok]; rfl
  simp [api_commit, hv, hv2]

/-- witness for C3 (amended): clean status, empty catalog, git commit
reporting a nonzero return code. -/
theorem checkpoint_ignores_change_detector_witness :
    has_uncommitted_changes { pending := false, commitRc := 1 } = false ∧
    validate_database [] [] =
      Except.ok { valid := true, errors := [], warnings := [],
                  product_count := 0, category_count := 0 } ∧
    api_commit [] [] { pending := false, commitRc := 1 } "2025-01-01 00:00" =
      Except.ok
        { result := git_commit { pending := false, commitRc := 1 }
            ("Actualización de productos/categorías - " ++ "2025-01-01 00:00")
          invokedCommit := true
          products := []
          categories := []
          pendingAfter :=
            if (git_commit { pending := false, commitRc := 1 }
                ("Actualización de productos/categorías - " ++ "2025-01-01 00:00")).success
            then false else false } :=
  ⟨rfl, rfl,
    checkpoint_ignores_change_detector [] [] { pending := false, commitRc := 1 }
      "2025-01-01 00:00" _ rfl rfl rfl⟩

/-- C5: the validator emits the missing-price error exactly for products
whose price key is absent, naming the product id; a price of exactly zero
produces no such error. The last two conjuncts check this at the level of
validate_database on the two scenario catalogs of the specification. -/
theorem missing_price_error_iff_absent :
    (∀ p : Product, productPriceErrors p =
        if p.price = none
        then ["Producto " ++ quoted (idShown p.id) ++ " sin precio"]
        else []) ∧
    validate_database
        [{ id := some "a", name := some "Widget", price := some 0,
           categories := some ["x"] }] [] =
      Except.ok
        { valid := false
          errors := ["Producto " ++ quoted "Widget" ++ " tiene categoría inexistente: x"]
          warnings := ["Producto " ++ quoted "Widget" ++ " sin imagen"]
          product_count := 1
          category_count := 0 } ∧
    validate_database
        [{ id := some "a", name := some "Widget", price := none,
           image := some "x.png", categories := some ["x"] }]
        [{ id := some "x", name := some "X" }] =
      Except.ok
        { valid := false
          errors := ["Producto " ++ quoted "a" ++ " sin precio"]
          warnings := []
          product_count := 1
          category_count := 1 } := by
  refine ⟨fun p => ?_, rfl, rfl⟩
  cases hp : p.price with
  | none =>
    simp [productPriceErrors, numTruthy, numNeZero, hp, msgProductNoPrice]
  | some q =>
    by_cases h0 : q = 0 <;>
      simp [productPriceErrors, numTruthy, numNeZero, hp, h0, msgProductNoPrice]

/-- C10 counterexample: a category record whose id key is entirely absent
makes the validator raise a KeyError while building the category id set
(admin.py line 118), so no report and in particular no missing-ID error is
produced for it. -/
theorem validator_missing_category_id_counterexample :
    validate_database [] [{ name := some "X" }] = Except.error PyExc.keyError :=
  rfl

/-- C4 counterexample: a create request and an update request whose price
field is the non-numeric text abc raise ValueError out of the handler (no
discriminated invalid-number result is returned), leaving the persisted
collection unchanged. -/
theorem invalid_price_counterexample :
    new_product { id := "a", name := "P", price := "abc" } "2024-01-01" [] =
      Handler.raised PyExc.valueError [] ∧
    edit_product { id := "a", name := "P", price := "abc" } "a"
        [{ id := some "a", name := some "Old", price := some 1 }] =
      Handler.raised PyExc.valueError
        [{ id := some "a", name := some "Old", price := some 1 }] :=
  ⟨rfl, rfl⟩

/-- C4 (amended): a create or update request whose price field is not
parseable as a number raises an uncaught ValueError escaping the handler
instead of returning a discriminated invalid-number result; the persisted
collection is left unchanged because the exception occurs before any
save. -/
theorem invalid_price_raises_unhandled
    (form : ProductForm) (today pid : String) (products : List Product)
    (hbad : pyFloat form.price = none) :
    (anyIdIs (products.map fun p => p.id) (normalizeId form.id) = Except.ok false →
      new_product form today products = Handler.raised PyExc.valueError products) ∧
    (∀ pre orig suf,
      findSplitBy (fun p => p.id) products pid = Except.ok (some (pre, orig, suf)) →
      edit_product form pid products = Handler.raised PyExc.valueError products) := by
  constructor
  · intro ha
    simp [new_product, ha, hbad]
  · intro pre orig suf hf
    simp [edit_product, hf, hbad]

/-- witness for C4 (amended): concrete create and update requests with
the unparseable price text 9,5 (a decimal comma), settled through the
general theorem with every hypothesis discharged at the input. -/
theorem invalid_price_raises_unhandled_witness :
    new_product { id := "b", name := "Q", price := "9,5" } "2024-02-02" [] =
      Handler.raised PyExc.valueError [] ∧
    edit_product { id := "b", name := "Q", price := "9,5" } "b"
        [{ id := some "b", name := some "Old", price := some 2 }] =
      Handler.raised PyExc.valueError
        [{ id := some "b", name := some "Old", price := some 2 }] :=
  ⟨(invalid_price_raises_unhandled { id := "b", name := "Q", price := "9,5" }
      "2024-02-02" "b" [] rfl).1 rfl,
   (invalid_price_raises_unhandled { id := "b", name := "Q", price := "9,5" }
      "2024-02-02" "b" [{ id := some "b", name := some "Old", price := some 2 }] rfl).2
      [] { id := some "b", name := some "Old", price := some 2 } [] rfl⟩

/-- C6 counterexample: creating a category with the popular checkbox
unset stores the key popular with value false, so popular does not follow
the presence-encodes-true convention claimed for it. -/
theorem category_popular_counterexample :
    new_category { id := "b", name := "B" } [] =
      Handler.redirectOk "Categoría creada (recuerda guardar los cambios)"
        [{ id := some "b", name := some "B", icon := some "📦",
           popular := some false, seasonal := none, hidden := none }] :=
  rfl

/-- C6 (amended): after every successful category create or update,
seasonal and hidden follow the presence-encodes-true convention (present
with value true exactly when the flag is set, entirely absent otherwise),
while popular is always stored explicitly as a boolean, including as
false when the flag is unset. -/
theorem category_flag_presence_rules
    (form : CategoryForm) (cid : String) (categories : List Category)
    (m : String) (cs2 : List Category) :
    (new_category form categories = Handler.redirectOk m cs2 →
      ∃ c, cs2 = categories ++ [c] ∧
        c.popular = some form.popular ∧
        c.seasonal = (if form.seasonal then some true else none) ∧
        c.hidden = (if form.hidden then some true else none)) ∧
    (edit_category form cid categories = Handler.redirectOk m cs2 →
      ∃ pre orig suf upd,
        categories = pre ++ orig :: suf ∧ cs2 = pre ++ upd :: suf ∧
        upd.popular = some form.popular ∧
        upd.seasonal = (if form.seasonal then some true else none) ∧
        upd.hidden = (if form.hidden then some true else none)) := by
  constructor
  · intro h
    obtain ⟨-, h2⟩ := new_category_ok_inv h
    exact ⟨builtCategory form, h2, rfl, rfl, rfl⟩
  · intro h
    obtain ⟨pre, orig, suf, hsplit, -, h2⟩ := edit_category_ok_inv h
    exact ⟨pre, orig, suf, editedCategory orig form, hsplit, h2, rfl, rfl, rfl⟩

/-- witness for C6 (amended): a create with only seasonal set and an edit
with only hidden set, on concrete collections. -/
theorem category_flag_presence_rules_witness :
    (new_category { id := "b", name := "B", seasonal := true } [] =
      Handler.redirectOk "Categoría creada (recuerda guardar los cambios)"
        [{ id := some "b", name := some "B", icon := some "📦",
           popular := some false, seasonal := some true, hidden := none }] →
      ∃ c, [{ id := some "b", name := some "B", icon := some "📦",
              popular := some false, seasonal := some true, hidden := none : Category }] =
          [] ++ [c] ∧
        c.popular = some false ∧
        c.seasonal = (if true then some true else none) ∧
        c.hidden = (if false then some true else none)) ∧
    (new_category { id := "b", name := "B", seasonal := true } [] =
      Handler.redirectOk "Categoría creada (recuerda guardar los cambios)"
        [{ id := some "b", name := some "B", icon := some "📦",
           popular := some false, seasonal := some true, hidden := none }]) :=
  ⟨fun h => ((category_flag_presence_rules
      { id := "b", name := "B", seasonal := true } "b" []
      "Categoría creada (recuerda guardar los cambios)"
      [{ id := some "b", name := some "B", icon := some "📦",
         popular := some false, seasonal := some true, hidden := none }]).1 h),
   rfl⟩

/-- C7: a create request for a product or category whose normalised id
(lowercased, spaces to underscores) equals the id of an existing record
of the collection fails with the duplicate-id redirect and leaves the
stored collection unchanged. -/
theorem duplicate_id_create_rejected
    (pf : ProductForm) (cf : CategoryForm) (today : String)
    (products : List Product) (categories : List Category) :
    ((∀ p ∈ products, p.id ≠ none) →
      (∃ p ∈ products, p.id = some (normalizeId pf.id)) →
      new_product pf today products =
        Handler.redirectErr "Ya existe un producto con ese ID" products) ∧
    ((∀ c ∈ categories, c.id ≠ none) →
      (∃ c ∈ categories, c.id = some (normalizeId cf.id)) →
      new_category cf categories =
        Handler.redirectErr "Ya existe una categoría con ese ID" categories) := by
  constructor
  · intro hall hmem
    have ha : anyIdIs (products.map fun p => p.id) (normalizeId pf.id) = Except.ok true := by
      apply anyIdIs_mem
      · intro o ho
        obtain ⟨p, hp, rfl⟩ := List.mem_map.mp ho
        exact hall p hp
      · obtain ⟨p, hp, hid⟩ := hmem
        exact List.mem_map.mpr ⟨p, hp, hid⟩
    simp [new_product, ha]
  · intro hall hmem
    have ha : anyIdIs (categories.map fun c => c.id) (normalizeId cf.id) = Except.ok true := by
      apply anyIdIs_mem
      · intro o ho
        obtain ⟨c, hc, rfl⟩ := List.mem_map.mp ho
        exact hall c hc
      · obtain ⟨c, hc, hid⟩ := hmem
        exact List.mem_map.mpr ⟨c, hc, hid⟩
    simp [new_category, ha]

/-- witness for C7: creating the product id A Bc over an existing record
with id a_bc is rejected and the collection stays as it was, and likewise
for a category. -/
theorem duplicate_id_create_rejected_witness :
    new_product { id := "A Bc", name := "N", price := "1" } "2024-01-01"
        [{ id := some "a_bc", name := some "Old", price := some 1 }] =
      Handler.redirectErr "Ya existe un producto con ese ID"
        [{ id := some "a_bc", name := some "Old", price := some 1 }] ∧
    new_category { id := "A Bc", name := "N" }
        [{ id := some "a_bc", name := some "Old" }] =
      Handler.redirectErr "Ya existe una categoría con ese ID"
        [{ id := some "a_bc", name := some "Old" }] :=
  ⟨(duplicate_id_create_rejected { id := "A Bc", name := "N", price := "1" }
      { id := "A Bc", name := "N" } "2024-01-01"
      [{ id := some "a_bc", name := some "Old", price := some 1 }]
      [{ id := some "a_bc", name := some "Old" }]).1
      (by intro p hp; simp at hp; rw [hp]; simp)
      ⟨{ id := some "a_bc", name := some "Old", price := some 1 }, by simp, by rfl⟩,
   (duplicate_id_create_rejected { id := "A Bc", name := "N", price := "1" }
      { id := "A Bc", name := "N" } "2024-01-01"
      [{ id := some "a_bc", name := some "Old", price := some 1 }]
      [{ id := some "a_bc", name := some "Old" }]).2
      (by intro c hc; simp at hc; rw [hc]; simp)
      ⟨{ id := some "a_bc", name := some "Old" }, by simp, by rfl⟩⟩

/-- C9 counterexample: for the offer line 03,5 the parsed quantity is 3
but the defaulted label is the raw first field 03 followed by the
suffix, not the parsed quantity 3, so the label is not
quantity-plus-unidades as claimed. -/
theorem offer_label_counterexample :
    offersField (some "03,5") =
      some [{ quantity := 3, price := 5, label := "03+ unidades" }] ∧
    ("03+ unidades" : String) ≠ "3+ unidades" :=
  ⟨by decide, by decide⟩

/-- C9 (amended): each line of the priceOffers text is split on commas
into quantity, price and an optional label; a line whose quantity or
price does not parse is dropped silently and the create operation still
succeeds; an omitted label defaults to the raw quantity text of the line
followed by the suffix plus-unidades (equal to the parsed quantity
exactly when that text is written canonically); and when no line parses
the stored record carries no priceOffers key (for an update, the key is
removed). -/
theorem offer_parsing_lenient :
    (∀ (line : String) p0 p1 rest,
        pySplit ',' (pyStrip line) = p0 :: p1 :: rest →
        pyInt p0 = none ∨ pyFloat p1 = none →
        parseOfferLine line = none) ∧
    (∀ (form : ProductForm) (today : String) (products : List Product) pr,
        pyFloat form.price = some pr →
        anyIdIs (products.map fun p => p.id) (normalizeId form.id) = Except.ok false →
        ∃ ps2, new_product form today products =
          Handler.redirectOk "Producto creado (recuerda guardar los cambios)" ps2) ∧
    (∀ (line : String) p0 p1 q pr,
        pySplit ',' (pyStrip line) = [p0, p1] →
        pyInt p0 = some q → pyFloat p1 = some pr →
        parseOfferLine line =
          some { quantity := q, price := pr, label := p0 ++ "+ unidades" }) ∧
    (∀ (form : ProductForm) (today m : String) (products ps2 : List Product),
        new_product form today products = Handler.redirectOk m ps2 →
        parseOffers (pyStrip (form.priceOffers.getD "")) = [] →
        ∃ p, ps2 = products ++ [p] ∧ p.priceOffers = none) ∧
    (∀ (form : ProductForm) (pid m : String) (products ps2 : List Product),
        edit_product form pid products = Handler.redirectOk m ps2 →
        parseOffers (pyStrip (form.priceOffers.getD "")) = [] →
        ∃ pre orig suf upd, products = pre ++ orig :: suf ∧
          ps2 = pre ++ upd :: suf ∧ upd.priceOffers = none) := by
  refine ⟨?_, ?_, ?_, ?_, ?_⟩
  · intro line p0 p1 rest hsplit hbad
    unfold parseOfferLine
    rw [hsplit]
    cases hq : pyInt p0 with
    | none => simp [hq]
    | some q =>
      cases hp : pyFloat p1 with
      | none => simp [hq, hp]
      | some pr =>
        cases hbad with
        | inl h => exact absurd hq (h ▸ by simp)
        | inr h => exact absurd hp (h ▸ by simp)
  · intro form today products pr hp ha
    refine ⟨products ++ [builtProduct form today pr], ?_⟩
    simp [new_product, ha, hp]
  · intro line p0 p1 q pr hsplit hq hp
    unfold parseOfferLine
    rw [hsplit]
    simp [hq, hp]
  · intro form today m products ps2 h hoff
    obtain ⟨pr, -, -, hps⟩ := new_product_ok_inv h
    refine ⟨builtProduct form today pr, hps, ?_⟩
    show offersField form.priceOffers = none
    by_cases ht : pyStrip (form.priceOffers.getD "") = "" <;>
      simp [offersField, ht, hoff]
  · intro form pid m products ps2 h hoff
    obtain ⟨pre, orig, suf, pr, hsp, -, -, hps⟩ := edit_product_ok_inv h
    refine ⟨pre, orig, suf, editedProduct orig form pr, hsp, hps, ?_⟩
    show offersField form.priceOffers = none
    by_cases ht : pyStrip (form.priceOffers.getD "") = "" <;>
      simp [offersField, ht, hoff]

/-- witness for C9 (amended): the unparseable line x,1 is dropped, the
create operation over it still succeeds, the line 2,3 gets the defaulted
label, and both the create and the update store no priceOffers key when
no line parses. -/
theorem offer_parsing_lenient_witness :
    parseOfferLine "x,1" = none ∧
    (∃ ps2,
      new_product { id := "n", name := "N", price := "1", priceOffers := some "x,1" }
          "2024-03-03" [] =
        Handler.redirectOk "Producto creado (recuerda guardar los cambios)" ps2) ∧
    parseOfferLine "2,3" = some { quantity := 2, price := 3, label := "2+ unidades" } ∧
    (∃ p,
      [{ id := some "n", name := some "N", description := some "",
         price := some 1, image := some "resources/LOGO_SIN_FONDO.png",
         images := none, highlighted := some false, hidden := none,
         categories := some [], size := some "", material := some "PLA",
         wallapopLink := none, priceOffers := none,
         createdAt := some "2024-03-03" : Product }] = [] ++ [p] ∧
      p.priceOffers = none) ∧
    (∃ pre orig suf upd,
      [{ id := some "b", name := some "Old", price := some 2 : Product }] =
        pre ++ orig :: suf ∧
      [{ id := some "b", name := some "N", description := some "",
         price := some 1, image := some "resources/LOGO_SIN_FONDO.png",
         images := none, highlighted := some false, hidden := none,
         categories := some [], size := some "", material := some "PLA",
         wallapopLink := none, priceOffers := none,
         createdAt := none : Product }] = pre ++ upd :: suf ∧
      upd.priceOffers = none) :=
  ⟨offer_parsing_lenient.1 "x,1" "x" "1" [] (by decide) (Or.inl (by decide)),
   offer_parsing_lenient.2.1
     { id := "n", name := "N", price := "1", priceOffers := some "x,1" }
     "2024-03-03" [] 1 (by decide) rfl,
   offer_parsing_lenient.2.2.1 "2,3" "2" "3" 2 3 (by decide) (by decide) (by decide),
   offer_parsing_lenient.2.2.2.1
     { id := "n", name := "N", price := "1", priceOffers := some "x,1" }
     "2024-03-03" "Producto creado (recuerda guardar los cambios)" []
     [{ id := some "n", name := some "N", description := some "",
        price := some 1, image := some "resources/LOGO_SIN_FONDO.png",
        images := none, highlighted := some false, hidden := none,
        categories := some [], size := some "", material := some "PLA",
        wallapopLink := none, priceOffers := none,
        createdAt := some "2024-03-03" }]
     (by decide) (by decide),
   offer_parsing_lenient.2.2.2.2
     { id := "n", name := "N", price := "1", priceOffers := some "x,1" }
     "b" "Producto actualizado (recuerda guardar los cambios)"
     [{ id := some "b", name := some "Old", price := some 2 }]
     [{ id := some "b", name := some "N", description := some "",
        price := some 1, image := some "resources/LOGO_SIN_FONDO.png",
        images := none, highlighted := some false, hidden := none,
        categories := some [], size := some "", material := some "PLA",
        wallapopLink := none, priceOffers := none,
        createdAt := none }]
     (by decide) (by decide)⟩

/-! Lemmas relating the image-line computation of the source (whole-field
strip, then split, then per-line strip) to the plain nonblank-lines
description used by the specification. -/

theorem splitCore_cons_sep (sep : Char) (cs : List Char) :
    splitCore sep (sep :: cs) = [] :: splitCore sep cs := by
  simp [splitCore]

theorem splitCore_cons_ne (sep : Char) {c : Char} (h : ¬c = sep) (cs : List Char) :
    splitCore sep (c :: cs) = consHead c (splitCore sep cs) := by
  simp [splitCore, h]

theorem splitCore_ne_nil (sep : Char) (cs : List Char) : splitCore sep cs ≠ [] := by
  induction cs with
  | nil => simp [splitCore]
  | cons c cs ih =>
    by_cases h : c = sep
    · subst h; simp [splitCore_cons_sep]
    · cases hr : splitCore sep cs with
      | nil => exact absurd hr ih
      | cons x xs => simp [splitCore_cons_ne sep h, hr, consHead]

theorem pyStripCore_cons_ws {c : Char} (hw : c.isWhitespace = true) (l : List Char) :
    pyStripCore (c :: l) = pyStripCore l := by
  simp [pyStripCore, stripLCore, List.dropWhile_cons, hw]

theorem stripOrDrop_cons_ws {c : Char} (hw : c.isWhitespace = true) (l : List Char) :
    stripOrDrop (c :: l) = stripOrDrop l := by
  simp [stripOrDrop, pyStripCore_cons_ws hw]

theorem nonblankCore_cons_ws {c : Char} (hw : c.isWhitespace = true) (cs : List Char) :
    nonblankCore (c :: cs) = nonblankCore cs := by
  by_cases hn : c = '\n'
  · subst hn
    rw [nonblankCore, splitCore_cons_sep, List.filterMap_cons]
    simp [stripOrDrop, pyStripCore, stripLCore, stripRCore, nonblankCore]
  · cases hr : splitCore '\n' cs with
    | nil => exact absurd hr (splitCore_ne_nil _ _)
    | cons x xs =>
      rw [nonblankCore, splitCore_cons_ne '\n' hn, hr, consHead, nonblankCore, hr]
      simp only [List.filterMap_cons, stripOrDrop_cons_ws hw]

theorem nonblank_stripL (cs : List Char) :
    nonblankCore (stripLCore cs) = nonblankCore cs := by
  induction cs with
  | nil => rfl
  | cons c cs ih =>
    by_cases hw : c.isWhitespace
    · rw [show stripLCore (c :: cs) = stripLCore cs by
        simp [stripLCore, List.dropWhile_cons, hw], ih, nonblankCore_cons_ws hw]
    · rw [show stripLCore (c :: cs) = c :: cs by
        simp [stripLCore, List.dropWhile_cons, hw]]

theorem modifyLast_cons {α : Type} (f : α → α) (x : α) {l : List α} (h : l ≠ []) :
    modifyLast f (x :: l) = x :: modifyLast f l := by
  cases l with
  | nil => exact absurd rfl h
  | cons y ys => rfl

theorem modifyLast_append_singleton {α : Type} (f : α → α) (ys : List α) (y : α) :
    modifyLast f (ys ++ [y]) = ys ++ [f y] := by
  induction ys with
  | nil => rfl
  | cons a as ih =>
    rw [List.cons_append, modifyLast_cons f a (by simp), ih, List.cons_append]

theorem consHead_modifyLast (c d : Char) {L : List (List Char)} (h : L ≠ []) :
    consHead c (modifyLast (fun l => l ++ [d]) L) =
      modifyLast (fun l => l ++ [d]) (consHead c L) := by
  cases L with
  | nil => exact absurd rfl h
  | cons x xs =>
    cases xs with
    | nil => simp [consHead, modifyLast]
    | cons y ys =>
      rw [modifyLast_cons _ x (by simp)]
      simp [consHead, modifyLast_cons _ (c :: x) (l := y :: ys) (by simp)]

theorem consHead_append_empty (c : Char) {L : List (List Char)} (h : L ≠ []) :
    consHead c (L ++ [[]]) = consHead c L ++ [[]] := by
  cases L with
  | nil => exact absurd rfl h
  | cons x xs => simp [consHead]

theorem splitCore_append_singleton (sep c : Char) (xs : List Char) :
    splitCore sep (xs ++ [c]) =
      if c = sep then splitCore sep xs ++ [[]]
      else modifyLast (fun l => l ++ [c]) (splitCore sep xs) := by
  induction xs with
  | nil =>
    by_cases h : c = sep
    · subst h; simp [splitCore_cons_sep, splitCore]
    · simp [splitCore_cons_ne sep h, h, splitCore, consHead, modifyLast]
  | cons x xs ih =>
    rw [List.cons_append]
    by_cases hx : x = sep
    · subst hx
      rw [splitCore_cons_sep, splitCore_cons_sep, ih]
      by_cases hc : c = x
      · rw [if_pos hc, if_pos hc]
        rfl
      · rw [if_neg hc, if_neg hc,
          modifyLast_cons _ [] (splitCore_ne_nil _ xs)]
    · rw [splitCore_cons_ne sep hx, splitCore_cons_ne sep hx, ih]
      by_cases hc : c = sep
      · rw [if_pos hc, if_pos hc,
          consHead_append_empty x (splitCore_ne_nil sep xs)]
      · rw [if_neg hc, if_neg hc,
          consHead_modifyLast x c (splitCore_ne_nil sep xs)]

theorem stripRCore_append_ws {c : Char} (hw : c.isWhitespace = true) (l : List Char) :
    stripRCore (l ++ [c]) = stripRCore l := by
  simp [stripRCore, List.reverse_append, List.dropWhile_cons, hw]

theorem stripRCore_append_not_ws {c : Char} (hw : ¬c.isWhitespace = true) (l : List Char) :
    stripRCore (l ++ [c]) = l ++ [c] := by
  simp [stripRCore, List.reverse_append, List.dropWhile_cons, hw]

theorem pyStripCore_append_ws {c : Char} (hw : c.isWhitespace = true) (l : List Char) :
    pyStripCore (l ++ [c]) = pyStripCore l := by
  induction l with
  | nil => simp [pyStripCore, stripLCore, stripRCore, List.dropWhile_cons, hw]
  | cons a l ih =>
    by_cases ha : a.isWhitespace
    · rw [List.cons_append, pyStripCore_cons_ws ha, ih, pyStripCore_cons_ws ha]
    · rw [List.cons_append]
      rw [show pyStripCore (a :: (l ++ [c])) = stripRCore (a :: (l ++ [c])) by
        simp [pyStripCore, stripLCore, List.dropWhile_cons, ha]]
      rw [show pyStripCore (a :: l) = stripRCore (a :: l) by
        simp [pyStripCore, stripLCore, List.dropWhile_cons, ha]]
      rw [show a :: (l ++ [c]) = (a :: l) ++ [c] by simp]
      exact stripRCore_append_ws hw (a :: l)

theorem filterMap_modifyLast {α β : Type} (g : α → Option β) (f : α → α)
    (hg : ∀ x, g (f x) = g x) (L : List α) :
    List.filterMap g (modifyLast f L) = List.filterMap g L := by
  induction L with
  | nil => rfl
  | cons x xs ih =>
    cases xs with
    | nil => simp [modifyLast, List.filterMap_cons, hg]
    | cons y ys =>
      rw [modifyLast_cons f x (by simp)]
      simp only [List.filterMap_cons, ih]

theorem nonblankCore_append_ws {c : Char} (hw : c.isWhitespace = true) (ds : List Char) :
    nonblankCore (ds ++ [c]) = nonblankCore ds := by
  by_cases hn : c = '\n'
  · subst hn
    rw [nonblankCore, splitCore_append_singleton, if_pos rfl, List.filterMap_append]
    simp [nonblankCore, stripOrDrop, pyStripCore, stripLCore, stripRCore]
  · rw [nonblankCore, splitCore_append_singleton, if_neg hn,
      filterMap_modifyLast stripOrDrop _
        (fun x => by simp [stripOrDrop, pyStripCore_append_ws hw]),
      nonblankCore]

theorem nonblank_stripR (cs : List Char) :
    nonblankCore (stripRCore cs) = nonblankCore cs := by
  induction cs using List.reverseRecOn with
  | nil => rfl
  | append_singleton ds c ih =>
    by_cases hw : c.isWhitespace
    · rw [stripRCore_append_ws hw, ih, nonblankCore_append_ws hw]
    · rw [stripRCore_append_not_ws hw]

theorem nonblank_strip (cs : List Char) :
    nonblankCore (pyStripCore cs) = nonblankCore cs := by
  show nonblankCore (stripRCore (stripLCore cs)) = nonblankCore cs
  rw [nonblank_stripR, nonblank_stripL]

theorem nonblankLines_eq_core (s : String) :
    nonblankLines s = (nonblankCore s.data).map fun cs => (⟨cs⟩ : String) := by
  rw [nonblankLines, pySplit, nonblankCore, List.filterMap_map, List.map_filterMap]
  have hfun : ∀ cs : List Char,
      ((fun l : String => if pyStrip l = "" then none else some (pyStrip l)) ∘
        fun cs : List Char => (⟨cs⟩ : String)) cs =
      Option.map (fun cs : List Char => (⟨cs⟩ : String)) (stripOrDrop cs) := by
    intro cs
    show (if pyStrip ⟨cs⟩ = "" then none else some (pyStrip ⟨cs⟩)) =
      Option.map (fun cs : List Char => (⟨cs⟩ : String)) (stripOrDrop cs)
    by_cases hE : pyStripCore cs = [] <;>
      simp [pyStrip, stripOrDrop, hE, String.ext_iff]
  exact List.filterMap_congr fun cs _ => hfun cs

theorem extraImages_eq_nonblankLines (s : String) : extraImages s = nonblankLines s := by
  by_cases hE : pyStrip s = ""
  · have hd : pyStripCore s.data = [] := by
      have h2 := String.ext_iff.mp hE
      simpa [pyStrip] using h2
    rw [extraImages, if_pos hE, nonblankLines_eq_core, ← nonblank_strip s.data, hd]
    rfl
  · rw [extraImages, if_neg hE,
      show (pySplit '\n' (pyStrip s)).filterMap (fun l =>
        let t := pyStrip l
        if t = "" then none else some t) = nonblankLines (pyStrip s) from rfl,
      nonblankLines_eq_core, nonblankLines_eq_core,
      show (pyStrip s).data = pyStripCore s.data from rfl, nonblank_strip]

theorem imagesFieldShape (main raw : String) :
    (if (main :: extraImages raw).length > 1
     then some (main :: extraImages raw) else none) =
      (if nonblankLines raw = [] then none
       else some (main :: nonblankLines raw)) := by
  rw [extraImages_eq_nonblankLines]
  cases h : nonblankLines raw with
  | nil => simp [h]
  | cons a as => simp [h]

theorem builtProduct_image_fields (form : ProductForm) (today : String) (pr : Rat) :
    (builtProduct form today pr).image = some (mainImageOf form) ∧
    (builtProduct form today pr).images =
      (if nonblankLines (form.additional_images.getD "") = [] then none
       else some (mainImageOf form :: nonblankLines (form.additional_images.getD ""))) := by
  refine ⟨rfl, ?_⟩
  show (if (mainImageOf form :: extraImages (form.additional_images.getD "")).length > 1
    then some (mainImageOf form :: extraImages (form.additional_images.getD ""))
    else none) = _
  exact imagesFieldShape (mainImageOf form) (form.additional_images.getD "")

theorem editedProduct_image_fields (orig : Product) (form : ProductForm) (pr : Rat) :
    (editedProduct orig form pr).image = some (mainImageOf form) ∧
    (editedProduct orig form pr).images =
      (if nonblankLines (form.additional_images.getD "") = [] then none
       else some (mainImageOf form :: nonblankLines (form.additional_images.getD ""))) := by
  refine ⟨rfl, ?_⟩
  show (if (mainImageOf form :: extraImages (form.additional_images.getD "")).length > 1
    then some (mainImageOf form :: extraImages (form.additional_images.getD ""))
    else none) = _
  exact imagesFieldShape (mainImageOf form) (form.additional_images.getD "")

/-- C8: for every successful create or update of a product, the stored
images array is the main image followed by the nonblank additional-image
lines (each stripped) in input order; when only the main image exists the
images key is entirely absent; and whenever the images key is present its
first entry equals the image field value. -/
theorem images_list_shape
    (form : ProductForm) (pid today m : String) (products ps2 : List Product) :
    (new_product form today products = Handler.redirectOk m ps2 →
      ∃ p, ps2 = products ++ [p] ∧
        p.image = some (mainImageOf form) ∧
        p.images =
          (if nonblankLines (form.additional_images.getD "") = [] then none
           else some (mainImageOf form :: nonblankLines (form.additional_images.getD ""))) ∧
        (∀ imgs, p.images = some imgs → imgs.head? = some (mainImageOf form))) ∧
    (edit_product form pid products = Handler.redirectOk m ps2 →
      ∃ pre orig suf upd, products = pre ++ orig :: suf ∧ ps2 = pre ++ upd :: suf ∧
        upd.image = some (mainImageOf form) ∧
        upd.images =
          (if nonblankLines (form.additional_images.getD "") = [] then none
           else some (mainImageOf form :: nonblankLines (form.additional_images.getD ""))) ∧
        (∀ imgs, upd.images = some imgs → imgs.head? = some (mainImageOf form))) := by
  constructor
  · intro h
    obtain ⟨pr, -, -, hps⟩ := new_product_ok_inv h
    obtain ⟨h1, h2⟩ := builtProduct_image_fields form today pr
    refine ⟨builtProduct form today pr, hps, h1, h2, ?_⟩
    intro imgs himgs
    rw [h2] at himgs
    cases hL : nonblankLines (form.additional_images.getD "") with
    | nil => rw [hL] at himgs; simp at himgs
    | cons a as =>
      rw [hL] at himgs
      simp only [if_neg (by simp : ¬(a :: as = []))] at himgs
      injection himgs with h3
      rw [← h3]
      rfl
  · intro h
    obtain ⟨pre, orig, suf, pr, hsp, -, -, hps⟩ := edit_product_ok_inv h
    obtain ⟨h1, h2⟩ := editedProduct_image_fields orig form pr
    refine ⟨pre, orig, suf, editedProduct orig form pr, hsp, hps, h1, h2, ?_⟩
    intro imgs himgs
    rw [h2] at himgs
    cases hL : nonblankLines (form.additional_images.getD "") with
    | nil => rw [hL] at himgs; simp at himgs
    | cons a as =>
      rw [hL] at himgs
      simp only [if_neg (by simp : ¬(a :: as = []))] at himgs
      injection himgs with h3
      rw [← h3]
      rfl

/-- witness for C8: the scenario of the specification, a create with main
image products/a.jpg and two additional image lines. -/
theorem images_list_shape_witness :
    (new_product
        { id := "w8", name := "W8", price := "1", image := some "products/a.jpg",
          additional_images := some "products/b.jpg\nproducts/c.jpg" }
        "2024-05-05" [] =
      Handler.redirectOk "Producto creado (recuerda guardar los cambios)"
        [{ id := some "w8", name := some "W8", description := some "",
           price := some 1, image := some "products/a.jpg",
           images := some ["products/a.jpg", "products/b.jpg", "products/c.jpg"],
           highlighted := some false, hidden := none, categories := some [],
           size := some "", material := some "PLA", wallapopLink := none,
           priceOffers := none, createdAt := some "2024-05-05" }]) ∧
    (∃ p,
      [{ id := some "w8", name := some "W8", description := some "",
         price := some 1, image := some "products/a.jpg",
         images := some ["products/a.jpg", "products/b.jpg", "products/c.jpg"],
         highlighted := some false, hidden := none, categories := some [],
         size := some "", material := some "PLA", wallapopLink := none,
         priceOffers := none, createdAt := some "2024-05-05" : Product }] = [] ++ [p] ∧
      p.image = some (mainImageOf
        { id := "w8", name := "W8", price := "1", image := some "products/a.jpg",
          additional_images := some "products/b.jpg\nproducts/c.jpg" }) ∧
      p.images =
        (if nonblankLines "products/b.jpg\nproducts/c.jpg" = [] then none
         else some (mainImageOf
            { id := "w8", name := "W8", price := "1", image := some "products/a.jpg",
              additional_images := some "products/b.jpg\nproducts/c.jpg" } ::
           nonblankLines "products/b.jpg\nproducts/c.jpg")) ∧
      (∀ imgs, p.images = some imgs →
        imgs.head? = some (mainImageOf
          { id := "w8", name := "W8", price := "1", image := some "products/a.jpg",
            additional_images := some "products/b.jpg\nproducts/c.jpg" }))) :=
  ⟨by decide,
   (images_list_shape
      { id := "w8", name := "W8", price := "1", image := some "products/a.jpg",
        additional_images := some "products/b.jpg\nproducts/c.jpg" }
      "w8" "2024-05-05" "Producto creado (recuerda guardar los cambios)" []
      [{ id := some "w8", name := some "W8", description := some "",
         price := some 1, image := some "products/a.jpg",
         images := some ["products/a.jpg", "products/b.jpg", "products/c.jpg"],
         highlighted := some false, hidden := none, categories := some [],
         size := some "", material := some "PLA", wallapopLink := none,
         priceOffers := none, createdAt := some "2024-05-05" }]).1 (by decide)⟩

/-! Lemmas about which strings the validator can emit, used to count the
without-ID errors and to rule duplicate-id errors out for records with a
missing or empty id. -/

theorem append_ne_of_ne {base u v : String} (h : u ≠ v) : base ++ u ≠ base ++ v :=
  fun he => h (str_left_cancel he)

theorem ne_pNoId_pDup (i : String) : msgProductDupId i ≠ msgProductNoId :=
  fun he =>
    absurd (show (some 'I' : Option Char) = some 'P' from
      congrArg (fun u : String => u.data.get? 0) he) (by decide)

theorem ne_pNoId_pNoName (p : Product) : msgProductNoName p ≠ msgProductNoId :=
  fun he =>
    absurd (show (some apoChar : Option Char) = some 's' from
      congrArg (fun u : String => u.data.get? 9) he) (by decide)

theorem ne_pNoId_pNoPrice (p : Product) : msgProductNoPrice p ≠ msgProductNoId :=
  fun he =>
    absurd (show (some apoChar : Option Char) = some 's' from
      congrArg (fun u : String => u.data.get? 9) he) (by decide)

theorem ne_pNoId_pBadCat (p : Product) (c : String) :
    msgProductBadCat p c ≠ msgProductNoId :=
  fun he =>
    absurd (show (some apoChar : Option Char) = some 's' from
      congrArg (fun u : String => u.data.get? 9) he) (by decide)

theorem ne_pNoId_cDup (i : String) : msgProductNoId ≠ msgCategoryDupId i :=
  fun he =>
    absurd (show (some 'P' : Option Char) = some 'I' from
      congrArg (fun u : String => u.data.get? 0) he) (by decide)

theorem ne_pNoId_cNoName (d : Category) : msgProductNoId ≠ msgCategoryNoName d :=
  fun he =>
    absurd (show (some 'P' : Option Char) = some 'C' from
      congrArg (fun u : String => u.data.get? 0) he) (by decide)

theorem ne_cNoId_pDup (i : String) : msgCategoryNoId ≠ msgProductDupId i :=
  fun he =>
    absurd (show (some 'C' : Option Char) = some 'I' from
      congrArg (fun u : String => u.data.get? 0) he) (by decide)

theorem ne_cNoId_pNoName (q : Product) : msgCategoryNoId ≠ msgProductNoName q :=
  fun he =>
    absurd (show (some 'C' : Option Char) = some 'P' from
      congrArg (fun u : String => u.data.get? 0) he) (by decide)

theorem ne_cNoId_pNoPrice (q : Product) : msgCategoryNoId ≠ msgProductNoPrice q :=
  fun he =>
    absurd (show (some 'C' : Option Char) = some 'P' from
      congrArg (fun u : String => u.data.get? 0) he) (by decide)

theorem ne_cNoId_pBadCat (q : Product) (c : String) :
    msgCategoryNoId ≠ msgProductBadCat q c :=
  fun he =>
    absurd (show (some 'C' : Option Char) = some 'P' from
      congrArg (fun u : String => u.data.get? 0) he) (by decide)

theorem ne_cNoId_cDup (i : String) : msgCategoryDupId i ≠ msgCategoryNoId :=
  fun he =>
    absurd (show (some 'I' : Option Char) = some 'C' from
      congrArg (fun u : String => u.data.get? 0) he) (by decide)

theorem ne_cNoId_cNoName (d : Category) : msgCategoryNoName d ≠ msgCategoryNoId :=
  fun he =>
    absurd (show (some apoChar : Option Char) = some 's' from
      congrArg (fun u : String => u.data.get? 10) he) (by decide)

theorem ne_pDupE_pDup {i : String} (hi : i ≠ "") :
    msgProductDupId "" ≠ msgProductDupId i :=
  append_ne_of_ne fun he => hi he.symm

theorem ne_pDupE_pNoName (q : Product) : msgProductDupId "" ≠ msgProductNoName q :=
  fun he =>
    absurd (show (some 'I' : Option Char) = some 'P' from
      congrArg (fun u : String => u.data.get? 0) he) (by decide)

theorem ne_pDupE_pNoPrice (q : Product) : msgProductDupId "" ≠ msgProductNoPrice q :=
  fun he =>
    absurd (show (some 'I' : Option Char) = some 'P' from
      congrArg (fun u : String => u.data.get? 0) he) (by decide)

theorem ne_pDupE_pBadCat (q : Product) (c : String) :
    msgProductDupId "" ≠ msgProductBadCat q c :=
  fun he =>
    absurd (show (some 'I' : Option Char) = some 'P' from
      congrArg (fun u : String => u.data.get? 0) he) (by decide)

theorem ne_pDupE_cDup (i : String) : msgProductDupId "" ≠ msgCategoryDupId i :=
  fun he =>
    absurd (show (some 'u' : Option Char) = some 'e' from
      congrArg (fun u : String => u.data.get? 4) he) (by decide)

theorem ne_pDupE_cNoName (d : Category) : msgProductDupId "" ≠ msgCategoryNoName d :=
  fun he =>
    absurd (show (some 'I' : Option Char) = some 'C' from
      congrArg (fun u : String => u.data.get? 0) he) (by decide)

theorem ne_cDupE_cDup {i : String} (hi : i ≠ "") :
    msgCategoryDupId "" ≠ msgCategoryDupId i :=
  append_ne_of_ne fun he => hi he.symm

theorem ne_cDupE_pDup (i : String) : msgCategoryDupId "" ≠ msgProductDupId i :=
  fun he =>
    absurd (show (some 'e' : Option Char) = some 'u' from
      congrArg (fun u : String => u.data.get? 4) he) (by decide)

theorem ne_cDupE_pNoName (q : Product) : msgCategoryDupId "" ≠ msgProductNoName q :=
  fun he =>
    absurd (show (some 'I' : Option Char) = some 'P' from
      congrArg (fun u : String => u.data.get? 0) he) (by decide)

theorem ne_cDupE_pNoPrice (q : Product) : msgCategoryDupId "" ≠ msgProductNoPrice q :=
  fun he =>
    absurd (show (some 'I' : Option Char) = some 'P' from
      congrArg (fun u : String => u.data.get? 0) he) (by decide)

theorem ne_cDupE_pBadCat (q : Product) (c : String) :
    msgCategoryDupId "" ≠ msgProductBadCat q c :=
  fun he =>
    absurd (show (some 'I' : Option Char) = some 'P' from
      congrArg (fun u : String => u.data.get? 0) he) (by decide)

theorem ne_cDupE_cNoName (d : Category) : msgCategoryDupId "" ≠ msgCategoryNoName d :=
  fun he =>
    absurd (show (some 'I' : Option Char) = some 'C' from
      congrArg (fun u : String => u.data.get? 0) he) (by decide)

theorem strTruthy_some {o : Option String} (h : strTruthy o = true) :
    ∃ i, o = some i ∧ i ≠ "" := by
  cases o with
  | none => simp [strTruthy] at h
  | some s => exact ⟨s, rfl, by simpa [strTruthy] using h⟩

theorem productIdCheck_mem {seen : List String} {p : Product} {e : String}
    (he : e ∈ (productIdCheck seen p).1) :
    e = msgProductNoId ∨ ∃ i, i ≠ "" ∧ e = msgProductDupId i := by
  by_cases ht : strTruthy p.id
  · obtain ⟨i, hido, hine⟩ := strTruthy_some ht
    have hti : strTruthy (some i) = true := by simp [strTruthy, hine]
    by_cases hm : i ∈ seen
    · simp [productIdCheck, hido, hti, hm] at he
      exact Or.inr ⟨i, hine, he⟩
    · simp [productIdCheck, hido, hti, hm] at he
  · simp [productIdCheck, ht] at he
    exact Or.inl he

theorem productBlock_mem {catIds seen : List String} {p : Product} {e : String}
    (he : e ∈ productBlockErrors catIds seen p) :
    e = msgProductNoId ∨ (∃ i, i ≠ "" ∧ e = msgProductDupId i) ∨
    (∃ q, e = msgProductNoName q) ∨ (∃ q, e = msgProductNoPrice q) ∨
    (∃ q c, e = msgProductBadCat q c) := by
  rw [productBlockErrors] at he
  rcases List.mem_append.mp he with h1 | h2
  rcases List.mem_append.mp h1 with h3 | h4
  rcases List.mem_append.mp h3 with h5 | h6
  · rcases productIdCheck_mem h5 with ha | hb
    · exact Or.inl ha
    · exact Or.inr (Or.inl hb)
  · by_cases hn : strTruthy p.name <;> simp [productNameErrors, hn] at h6
    exact Or.inr (Or.inr (Or.inl ⟨p, h6⟩))
  · rcases (by
      by_cases hc : !(numTruthy p.price) && numNeZero p.price <;>
        simp [productPriceErrors, hc] at h4
      exact h4 : e = msgProductNoPrice p) with h7
    exact Or.inr (Or.inr (Or.inr (Or.inl ⟨p, h7⟩)))
  · by_cases hl : listTruthy p.categories
    · simp only [productCatChecks, hl, Bool.not_true, Bool.false_eq_true,
        if_false, ite_false] at h2
      rcases List.mem_filterMap.mp h2 with ⟨c, -, hc⟩
      by_cases hmem : c ∈ catIds
      · simp [hmem] at hc
      · simp [hmem] at hc
        exact Or.inr (Or.inr (Or.inr (Or.inr ⟨p, c, hc.symm⟩)))
    · simp [productCatChecks, hl] at h2

theorem checkProducts_mem {catIds : List String} {products : List Product}
    {e : String} :
    ∀ {seen : List String}, e ∈ (checkProducts catIds seen products).1 →
    e = msgProductNoId ∨ (∃ i, i ≠ "" ∧ e = msgProductDupId i) ∨
    (∃ q, e = msgProductNoName q) ∨ (∃ q, e = msgProductNoPrice q) ∨
    (∃ q c, e = msgProductBadCat q c) := by
  induction products with
  | nil => intro seen he; simp [checkProducts] at he
  | cons p ps ih =>
    intro seen he
    rcases List.mem_append.mp (show e ∈ productBlockErrors catIds seen p ++
        (checkProducts catIds (productIdCheck seen p).2 ps).1 from he) with h1 | h2
    · exact productBlock_mem h1
    · exact ih h2

theorem categoryIdCheck_mem {seen : List String} {c : Category} {e : String}
    (he : e ∈ (categoryIdCheck seen c).1) :
    e = msgCategoryNoId ∨ ∃ i, i ≠ "" ∧ e = msgCategoryDupId i := by
  by_cases ht : strTruthy c.id
  · obtain ⟨i, hido, hine⟩ := strTruthy_some ht
    have hti : strTruthy (some i) = true := by simp [strTruthy, hine]
    by_cases hm : i ∈ seen
    · simp [categoryIdCheck, hido, hti, hm] at he
      exact Or.inr ⟨i, hine, he⟩
    · simp [categoryIdCheck, hido, hti, hm] at he
  · simp [categoryIdCheck, ht] at he
    exact Or.inl he

theorem checkCategories_mem {cats : List Category} {e : String} :
    ∀ {seen : List String}, e ∈ checkCategories seen cats →
    e = msgCategoryNoId ∨ (∃ i, i ≠ "" ∧ e = msgCategoryDupId i) ∨
    (∃ d, e = msgCategoryNoName d) := by
  induction cats with
  | nil => intro seen he; simp [checkCategories] at he
  | cons c cs ih =>
    intro seen he
    rcases List.mem_append.mp (show e ∈ categoryBlockErrors seen c ++
        checkCategories (categoryIdCheck seen c).2 cs from he) with h1 | h2
    · rw [categoryBlockErrors] at h1
      rcases List.mem_append.mp h1 with h3 | h4
      · rcases categoryIdCheck_mem h3 with ha | hb
        · exact Or.inl ha
        · exact Or.inr (Or.inl hb)
      · by_cases hn : strTruthy c.name <;> simp [hn] at h4
        exact Or.inr (Or.inr ⟨c, h4⟩)
    · exact ih h2

theorem productIdCheck_count_noId (seen : List String) (p : Product) :
    (productIdCheck seen p).1.count msgProductNoId =
      if strTruthy p.id then 0 else 1 := by
  by_cases ht : strTruthy p.id
  · obtain ⟨i, hido, hine⟩ := strTruthy_some ht
    have hti : strTruthy (some i) = true := by simp [strTruthy, hine]
    by_cases hm : i ∈ seen
    · simp [productIdCheck, hido, hti, hm, ht, List.count_cons, ne_pNoId_pDup i]
    · simp [productIdCheck, hido, hti, hm, ht]
  · simp [productIdCheck, ht, List.count_cons]

theorem productBlock_count_noId (catIds seen : List String) (p : Product) :
    (productBlockErrors catIds seen p).count msgProductNoId =
      if strTruthy p.id then 0 else 1 := by
  rw [productBlockErrors, List.count_append, List.count_append, List.count_append,
    productIdCheck_count_noId]
  have h2 : (productNameErrors p).count msgProductNoId = 0 :=
    List.count_eq_zero.mpr fun hm => by
      by_cases hn : strTruthy p.name <;> simp [productNameErrors, hn] at hm
      exact ne_pNoId_pNoName p hm.symm
  have h3 : (productPriceErrors p).count msgProductNoId = 0 :=
    List.count_eq_zero.mpr fun hm => by
      by_cases hc : (!(numTruthy p.price) && numNeZero p.price) = true <;>
        simp [productPriceErrors, hc] at hm
      exact ne_pNoId_pNoPrice p hm.symm
  have h4 : (productCatChecks catIds p).1.count msgProductNoId = 0 :=
    List.count_eq_zero.mpr fun hm => by
      by_cases hl : listTruthy p.categories
      · simp [productCatChecks, hl, List.mem_filterMap] at hm
        rcases hm with ⟨c, -, hc⟩
        by_cases hmem : c ∈ catIds <;> simp [hmem] at hc
        exact ne_pNoId_pBadCat p c hc
      · simp [productCatChecks, hl] at hm
  rw [h2, h3, h4]
  omega

theorem checkProducts_count_noId (catIds : List String) (products : List Product) :
    ∀ seen, (checkProducts catIds seen products).1.count msgProductNoId =
      products.countP fun p => !(strTruthy p.id) := by
  induction products with
  | nil => intro seen; rfl
  | cons p ps ih =>
    intro seen
    rw [show (checkProducts catIds seen (p :: ps)).1 =
      productBlockErrors catIds seen p ++
        (checkProducts catIds (productIdCheck seen p).2 ps).1 from rfl,
      List.count_append, productBlock_count_noId, ih, List.countP_cons]
    by_cases ht : strTruthy p.id <;> simp [ht, Nat.add_comm]

theorem checkCategories_not_mem_pNoId (seen : List String) (cats : List Category) :
    msgProductNoId ∉ checkCategories seen cats := fun hm => by
  rcases checkCategories_mem hm with h1 | ⟨i, hi, h2⟩ | ⟨d, h3⟩
  · exact absurd h1 (by decide)
  · exact ne_pNoId_cDup i h2
  · exact ne_pNoId_cNoName d h3

theorem checkProducts_not_mem_cNoId (catIds seen : List String)
    (products : List Product) :
    msgCategoryNoId ∉ (checkProducts catIds seen products).1 := fun hm => by
  rcases checkProducts_mem hm with h1 | ⟨i, hi, h2⟩ | ⟨q, h3⟩ | ⟨q, h4⟩ | ⟨q, c, h5⟩
  · exact absurd h1 (by decide)
  · exact ne_cNoId_pDup i h2
  · exact ne_cNoId_pNoName q h3
  · exact ne_cNoId_pNoPrice q h4
  · exact ne_cNoId_pBadCat q c h5

theorem categoryIdCheck_count_noId (seen : List String) (c : Category) :
    (categoryIdCheck seen c).1.count msgCategoryNoId =
      if strTruthy c.id then 0 else 1 := by
  by_cases ht : strTruthy c.id
  · obtain ⟨i, hido, hine⟩ := strTruthy_some ht
    have hti : strTruthy (some i) = true := by simp [strTruthy, hine]
    by_cases hm : i ∈ seen
    · simp [categoryIdCheck, hido, hti, hm, ht, List.count_cons, ne_cNoId_cDup i]
    · simp [categoryIdCheck, hido, hti, hm, ht]
  · simp [categoryIdCheck, ht, List.count_cons]

theorem categoryBlock_count_noId (seen : List String) (c : Category) :
    (categoryBlockErrors seen c).count msgCategoryNoId =
      if strTruthy c.id then 0 else 1 := by
  rw [categoryBlockErrors, List.count_append, categoryIdCheck_count_noId]
  have h2 : (if strTruthy c.name then ([] : List String)
      else [msgCategoryNoName c]).count msgCategoryNoId = 0 :=
    List.count_eq_zero.mpr fun hm => by
      by_cases hn : strTruthy c.name <;> simp [hn] at hm
      exact ne_cNoId_cNoName c hm.symm
  rw [h2, Nat.add_zero]

theorem checkCategories_count_noId (cats : List Category) :
    ∀ seen, (checkCategories seen cats).count msgCategoryNoId =
      cats.countP fun c => !(strTruthy c.id) := by
  induction cats with
  | nil => intro seen; rfl
  | cons c cs ih =>
    intro seen
    rw [show checkCategories seen (c :: cs) =
      categoryBlockErrors seen c ++
        checkCategories (categoryIdCheck seen c).2 cs from rfl,
      List.count_append, categoryBlock_count_noId, ih, List.countP_cons]
    by_cases ht : strTruthy c.id <;> simp [ht, Nat.add_comm]

theorem categoryIdSet_no_none {cats : List Category} {l : List String}
    (h : categoryIdSet cats = Except.ok l) : ∀ c ∈ cats, c.id ≠ none := by
  induction cats generalizing l with
  | nil => intro c hc; cases hc
  | cons c0 cs ih =>
    intro c hc
    cases hid : c0.id with
    | none => simp [categoryIdSet, hid] at h
    | some i =>
      rcases List.mem_cons.mp hc with rfl | hmem
      · simp [hid]
      · simp only [categoryIdSet, hid] at h
        cases hr : categoryIdSet cs with
        | error e => rw [hr] at h; exact absurd h (by simp [Except.map])
        | ok l2 => exact ih hr c hmem

theorem validate_ok_errors {products : List Product} {categories : List Category}
    {r : ValidationReport} (h : validate_database products categories = Except.ok r) :
    ∃ catIds, categoryIdSet categories = Except.ok catIds ∧
      r.errors = (checkProducts catIds [] products).1 ++
        checkCategories [] categories := by
  unfold validate_database at h
  cases hc : categoryIdSet categories with
  | error e => rw [hc] at h; exact absurd h (by simp)
  | ok catIds =>
    rw [hc] at h
    injection h with h2
    exact ⟨catIds, rfl, by rw [← h2]⟩

/-- C10 (amended): duplicate-id detection only tracks records whose id is
present and nonempty. A product with a missing or empty id, and a
category with an empty-string id, each contribute exactly one without-ID
error, are never added to the seen-id set, and no duplicate-id error is
ever reported for them: the number of without-ID errors in the report
equals the number of such records, and the duplicate-id message carrying
an empty id never occurs. (A category whose id key is entirely absent
instead crashes the validator with a KeyError, see the counterexample, so
the counting statements are conditional on a report being produced.) -/
theorem validator_no_id_tracking
    (products : List Product) (categories : List Category) (r : ValidationReport)
    (h : validate_database products categories = Except.ok r) :
    (∀ (seen : List String) (p : Product), strTruthy p.id = false →
        productIdCheck seen p = ([msgProductNoId], seen)) ∧
    (∀ (seen : List String) (c : Category), strTruthy c.id = false →
        categoryIdCheck seen c = ([msgCategoryNoId], seen)) ∧
    r.errors.count msgProductNoId = products.countP (fun p => !(strTruthy p.id)) ∧
    r.errors.count msgCategoryNoId = categories.countP (fun c => c.id == some "") ∧
    msgProductDupId "" ∉ r.errors ∧
    msgCategoryDupId "" ∉ r.errors := by
  obtain ⟨catIds, hcat, herr⟩ := validate_ok_errors h
  refine ⟨?_, ?_, ?_, ?_, ?_, ?_⟩
  · intro seen p hp
    simp [productIdCheck, hp]
  · intro seen c hp
    simp [categoryIdCheck, hp]
  · rw [herr, List.count_append, checkProducts_count_noId,
      List.count_eq_zero.mpr (checkCategories_not_mem_pNoId [] categories),
      Nat.add_zero]
  · rw [herr, List.count_append,
      List.count_eq_zero.mpr (checkProducts_not_mem_cNoId catIds [] products),
      checkCategories_count_noId, Nat.zero_add]
    apply List.countP_congr
    intro c hcmem
    have hne := categoryIdSet_no_none hcat c hcmem
    cases hid : c.id with
    | none => exact absurd hid hne
    | some s => by_cases hs : s = "" <;> simp [strTruthy, hid, hs]
  · rw [herr]
    intro hm
    rcases List.mem_append.mp hm with h1 | h2
    · rcases checkProducts_mem h1 with ha | ⟨i, hi, hb⟩ | ⟨q, hc2⟩ | ⟨q, hd⟩ | ⟨q, c, he2⟩
      · exact absurd ha (by decide)
      · exact ne_pDupE_pDup hi hb
      · exact ne_pDupE_pNoName q hc2
      · exact ne_pDupE_pNoPrice q hd
      · exact ne_pDupE_pBadCat q c he2
    · rcases checkCategories_mem h2 with ha | ⟨i, hi, hb⟩ | ⟨d, hc2⟩
      · exact absurd ha (by decide)
      · exact ne_pDupE_cDup i hb
      · exact ne_pDupE_cNoName d hc2
  · rw [herr]
    intro hm
    rcases List.mem_append.mp hm with h1 | h2
    · rcases checkProducts_mem h1 with ha | ⟨i, hi, hb⟩ | ⟨q, hc2⟩ | ⟨q, hd⟩ | ⟨q, c, he2⟩
      · exact absurd ha (by decide)
      · exact ne_cDupE_pDup i hb
      · exact ne_cDupE_pNoName q hc2
      · exact ne_cDupE_pNoPrice q hd
      · exact ne_cDupE_pBadCat q c he2
    · rcases checkCategories_mem h2 with ha | ⟨i, hi, hb⟩ | ⟨d, hc2⟩
      · exact absurd ha (by decide)
      · exact ne_cDupE_cDup hi hb
      · exact ne_cDupE_cNoName d hc2

/-- witness for C10 (amended): a catalog with one product lacking the id
key, one product with an empty id, one well-formed product, one category
with an empty id and one well-formed category. -/
theorem validator_no_id_tracking_witness :
    productIdCheck ["x"] { name := some "A", price := some 1 } =
      ([msgProductNoId], ["x"]) ∧
    categoryIdCheck [] { id := some "", name := some "E" } =
      ([msgCategoryNoId], []) ∧
    ([msgProductNoId, msgProductNoId, msgCategoryNoId] : List String).count
        msgProductNoId =
      ([{ name := some "A", price := some 1 },
        { id := some "", name := some "B", price := some 2 },
        { id := some "g", name := some "G", price := some 3,
          image := some "i.png", categories := some ["x"] }] :
        List Product).countP (fun p => !(strTruthy p.id)) ∧
    ([msgProductNoId, msgProductNoId, msgCategoryNoId] : List String).count
        msgCategoryNoId =
      ([{ id := some "", name := some "E" },
        { id := some "x", name := some "X" }] :
        List Category).countP (fun c => c.id == some "") ∧
    msgProductDupId "" ∉
      ([msgProductNoId, msgProductNoId, msgCategoryNoId] : List String) ∧
    msgCategoryDupId "" ∉
      ([msgProductNoId, msgProductNoId, msgCategoryNoId] : List String) := by
  have t := validator_no_id_tracking
    [{ name := some "A", price := some 1 },
     { id := some "", name := some "B", price := some 2 },
     { id := some "g", name := some "G", price := some 3,
       image := some "i.png", categories := some ["x"] }]
    [{ id := some "", name := some "E" }, { id := some "x", name := some "X" }]
    { valid := false
      errors := [msgProductNoId, msgProductNoId, msgCategoryNoId]
      warnings := ["Producto " ++ quoted "A" ++ " sin categorías",
                   "Producto " ++ quoted "A" ++ " sin imagen",
                   "Producto " ++ quoted "B" ++ " sin categorías",
                   "Producto " ++ quoted "B" ++ " sin imagen"]
      product_count := 3
      category_count := 2 }
    rfl
  exact ⟨t.1 ["x"] _ rfl, t.2.1 [] _ rfl, t.2.2.1, t.2.2.2.1,
    t.2.2.2.2.1, t.2.2.2.2.2⟩

end Oli3d
